import Mathlib

/-!
Verification of the EKF / RBO differential-drive simulator
(`ekf_rbo_simulator_final_version.py`) against its natural-language
specification.  The Python source is shallowly embedded over the real
numbers: numpy float arithmetic becomes exact real arithmetic, numpy
arrays become Mathlib matrices and `Fin n → ℝ` vectors, and the two
pseudorandom generators become explicit streams `ℕ → ℝ` of realized
normal draws, consumed in the order the source draws them.  A separate
embedding over `Option ℝ` (where `none` marks a non-finite IEEE value,
NaN or infinity) is used for the claims about division by zero and NaN
propagation in the correction step.
-/

open Real Matrix
open scoped Classical

noncomputable section

/-- Embedding of `np.arctan2(y, x)`: the argument of the complex number
`x + i y`, which in exact arithmetic lies in `(-π, π]`. -/
def atan2 (y x : ℝ) : ℝ := Complex.arg ⟨x, y⟩

/-- The angle-normalization idiom used throughout the source:
`np.arctan2(np.sin(t), np.cos(t))`, mapping any angle to `(-π, π]`. -/
def wrap (t : ℝ) : ℝ := atan2 (Real.sin t) (Real.cos t)

lemma wrap_mem_Ioc (t : ℝ) : wrap t ∈ Set.Ioc (-π) π := by
  unfold wrap atan2
  exact Complex.arg_mem_Ioc _

lemma complex_mk_cos_sin_ne_zero (t : ℝ) : (⟨Real.cos t, Real.sin t⟩ : ℂ) ≠ 0 := by
  intro h
  have h1 : Real.cos t = 0 := congrArg Complex.re h
  have h2 : Real.sin t = 0 := congrArg Complex.im h
  have := Real.sin_sq_add_cos_sq t
  rw [h1, h2] at this
  norm_num at this

lemma complex_abs_mk_cos_sin (t : ℝ) :
    Complex.abs ⟨Real.cos t, Real.sin t⟩ = 1 := by
  rw [Complex.mk_eq_add_mul_I, Complex.abs_add_mul_I]
  have h : Real.cos t ^ 2 + Real.sin t ^ 2 = 1 := by
    have := Real.sin_sq_add_cos_sq t
    linarith
  rw [h, Real.sqrt_one]

lemma cos_wrap (t : ℝ) : Real.cos (wrap t) = Real.cos t := by
  unfold wrap atan2
  rw [Complex.cos_arg (complex_mk_cos_sin_ne_zero t), complex_abs_mk_cos_sin]
  simp

lemma sin_wrap (t : ℝ) : Real.sin (wrap t) = Real.sin t := by
  unfold wrap atan2
  rw [Complex.sin_arg, complex_abs_mk_cos_sin]
  simp

lemma wrap_zero : wrap 0 = 0 := by
  unfold wrap atan2
  simp only [Real.sin_zero, Real.cos_zero]
  have : (⟨1, 0⟩ : ℂ) = 1 := by
    apply Complex.ext <;> simp
  rw [this, Complex.arg_one]

/-- Embedding of `motion_model(x, u, b)` (source lines 40-48): mean
displacement, heading update wrapped first, then translation along the
new heading. -/
def motion_model (x : Fin 3 → ℝ) (u : ℝ × ℝ) (b : ℝ) : Fin 3 → ℝ :=
  let d := (u.1 + u.2) / 2
  let theta_new := wrap (x 2 + (u.2 - u.1) / b)
  ![x 0 + d * Real.cos theta_new, x 1 + d * Real.sin theta_new, theta_new]

/-- Embedding of `jacobian_F(theta, dl, dr, b)` (source lines 50-59);
note the source does not wrap `theta_new` here. -/
def jacobian_F (theta dl dr b : ℝ) : Matrix (Fin 3) (Fin 3) ℝ :=
  let d := (dl + dr) / 2
  let theta_new := theta + (dr - dl) / b
  !![1, 0, -d * Real.sin theta_new;
     0, 1,  d * Real.cos theta_new;
     0, 0, 1]

/-- Embedding of the motion-noise matrix `Q` (source lines 77-80): the
diagonal holds the configured per-wheel values `DL`, `DR` as given --
the source does not square them. -/
def Q_mat (sDL sDR : ℝ) : Matrix (Fin 2) (Fin 2) ℝ :=
  !![sDL, 0; 0, sDR]

/-- The matrix the specification prescribes for `Q`:
`diag(motion variances per wheel)`, the squares of the configured
per-wheel standard deviations.  Stated from the words of the spec, for
comparison with `Q_mat`. -/
def Q_spec (sDL sDR : ℝ) : Matrix (Fin 2) (Fin 2) ℝ :=
  !![sDL ^ 2, 0; 0, sDR ^ 2]

/-- Embedding of the control Jacobian `V` (source lines 81-85),
evaluated at the pre-predict heading `pose_est[2]`. -/
def V_mat (theta b : ℝ) : Matrix (Fin 3) (Fin 2) ℝ :=
  !![(1 / 2) * Real.cos theta, (1 / 2) * Real.cos theta;
     (1 / 2) * Real.sin theta, (1 / 2) * Real.sin theta;
     -(1 / b), 1 / b]

/-- Embedding of the measurement Jacobian `H` (source lines 108-111). -/
def H_mat (dx dy rho q : ℝ) : Matrix (Fin 2) (Fin 3) ℝ :=
  !![-dx / rho, -dy / rho, 0;
     dy / q, -dx / q, -1]

/-- Embedding of the measurement covariance `R` (source line 113):
here the source does square the sensor standard deviations. -/
def R_mat (srho sphi : ℝ) : Matrix (Fin 2) (Fin 2) ℝ :=
  !![srho ^ 2, 0; 0, sphi ^ 2]

/-- Embedding of the `config` dictionary (source lines 25-35).  The two
seeds are not fields here: the random generators they seed are embedded
directly as draw streams `ℕ → ℝ` passed to the simulation. -/
structure Config where
  wheel_base : ℝ
  wheel_diameter : ℝ
  time_steps : ℕ
  landmarks : List (ℝ × ℝ)
  motionDL : ℝ
  motionDR : ℝ
  sensorRho : ℝ
  sensorPhi : ℝ
  initial_pose : Fin 3 → ℝ

/-- The configuration values hardcoded in the source. -/
def defaultConfig : Config where
  wheel_base := 1 / 2
  wheel_diameter := 1 / 10
  time_steps := 100
  landmarks := [(5, 5), (10, 0), (0, 10)]
  motionDL := 1 / 100
  motionDR := 1 / 100
  sensorRho := 1 / 10
  sensorPhi := 1 / 20
  initial_pose := ![0, 0, 0]

/-- The per-step turn-bias draw `rng_motion.normal(0, 0.05)` (source
line 67).  The motion stream `md` lists the realized standard-normal
draws of `rng_motion` in consumption order, five per time step; a draw
of `normal(0, s)` is embedded as `s` times the stream value. -/
def turnBias (md : ℕ → ℝ) (t : ℕ) : ℝ := (5 / 100) * md (5 * t)

/-- The true control `(dl_true, dr_true)` of time step `t` (source
lines 68-69): nominal `0.1` per wheel, fresh Gaussian increments from
draws `5t+1`, `5t+2`, and the shared turn bias of draw `5t`.  The
embedding of `normal(0, s)` as `s` times the stream value is faithful
for `s ≥ 0`; for a negative scale the generator raises `ValueError`
instead, an error path outside this embedding, so theorems evaluate
these controls only at configurations with non-negative noise. -/
def controlTrue (c : Config) (md : ℕ → ℝ) (t : ℕ) : ℝ × ℝ :=
  (1 / 10 + c.motionDL * md (5 * t + 1) - turnBias md t,
   1 / 10 + c.motionDR * md (5 * t + 2) + turnBias md t)

/-- The estimator control `(dl_est, dr_est)` of time step `t` (source
lines 72-73): fresh Gaussian increments from draws `5t+3`, `5t+4`, but
the same `turn_bias` value as the true control of the same step, and
drawn from the same `rng_motion` stream.  As with `controlTrue`, the
draw model is faithful for non-negative noise scales only. -/
def controlEst (c : Config) (md : ℕ → ℝ) (t : ℕ) : ℝ × ℝ :=
  (1 / 10 + c.motionDL * md (5 * t + 3) - turnBias md t,
   1 / 10 + c.motionDR * md (5 * t + 4) + turnBias md t)

/-- One per-step record of the EKF trajectory log (source lines
120-125): true pose, estimated pose, and the full 3×3 covariance. -/
structure LogRecord where
  xActual : ℝ
  yActual : ℝ
  thetaActual : ℝ
  xEstimated : ℝ
  yEstimated : ℝ
  thetaEstimated : ℝ
  cov : Matrix (Fin 3) (Fin 3) ℝ

instance : Inhabited LogRecord := ⟨⟨0, 0, 0, 0, 0, 0, 0⟩⟩

/-- One EKF correction (source lines 89-118) for the landmark `lm`,
given the current estimate `acc = (pose, P)`, the post-motion true pose
`pa`, and the two sensor draws at stream indices `idx`, `idx+1`.  The
heading of the returned pose is re-wrapped (source line 117).  The
sensor draws use the same `scale * draw` model as the controls,
faithful for non-negative sensor noise scales. -/
def correctLm (c : Config) (sd : ℕ → ℝ) (idx : ℕ) (pa : Fin 3 → ℝ)
    (lm : ℝ × ℝ) (acc : (Fin 3 → ℝ) × Matrix (Fin 3) (Fin 3) ℝ) :
    (Fin 3 → ℝ) × Matrix (Fin 3) (Fin 3) ℝ :=
  let pe := acc.1
  let P := acc.2
  let dx := lm.1 - pe 0
  let dy := lm.2 - pe 1
  let q := dx ^ 2 + dy ^ 2
  let expected_rho := Real.sqrt q
  let expected_phi := wrap (atan2 dy dx - pe 2)
  let dx_true := lm.1 - pa 0
  let dy_true := lm.2 - pa 1
  let measured_rho := Real.sqrt (dx_true ^ 2 + dy_true ^ 2) + c.sensorRho * sd idx
  let measured_phi := wrap (atan2 dy_true dx_true - pa 2 + c.sensorPhi * sd (idx + 1))
  let y0 := measured_rho - expected_rho
  let y1 := wrap (measured_phi - expected_phi)
  let H := H_mat dx dy expected_rho q
  let S := H * P * Hᵀ + R_mat c.sensorRho c.sensorPhi
  let K := P * Hᵀ * S⁻¹
  let pose1 := fun i => pe i + (K *ᵥ ![y0, y1]) i
  (![pose1 0, pose1 1, wrap (pose1 2)], (1 - K * H) * P)

/-- One full EKF time step `t` (source lines 66-125): ground-truth
motion, estimator motion prediction, covariance propagation
`P ← F P Fᵀ + V Q Vᵀ`, then one correction per landmark in list order,
and finally the appended log record. -/
def ekfStep (c : Config) (md sd : ℕ → ℝ) (t : ℕ)
    (pa pe : Fin 3 → ℝ) (P : Matrix (Fin 3) (Fin 3) ℝ) :
    (Fin 3 → ℝ) × (Fin 3 → ℝ) × Matrix (Fin 3) (Fin 3) ℝ × LogRecord :=
  let uT := controlTrue c md t
  let uE := controlEst c md t
  let pa' := motion_model pa uT c.wheel_base
  let pose_pred := motion_model pe uE c.wheel_base
  let F := jacobian_F (pe 2) uE.1 uE.2 c.wheel_base
  let P1 := F * P * Fᵀ + V_mat (pe 2) c.wheel_base * Q_mat c.motionDL c.motionDR *
      (V_mat (pe 2) c.wheel_base)ᵀ
  let base := 2 * c.landmarks.length * t
  let corrected := (c.landmarks.enum).foldl
    (fun acc il => correctLm c sd (base + 2 * il.1) pa' il.2 acc) (pose_pred, P1)
  let pe' := corrected.1
  let P' := corrected.2
  (pa', pe', P',
   { xActual := pa' 0, yActual := pa' 1, thetaActual := pa' 2,
     xEstimated := pe' 0, yEstimated := pe' 1, thetaEstimated := pe' 2,
     cov := P' })

/-- The simulation loop, by recursion on the remaining step count `n`,
with `t` the index of the next step. -/
def runSimAux (c : Config) (md sd : ℕ → ℝ) :
    ℕ → ℕ → (Fin 3 → ℝ) × (Fin 3 → ℝ) × Matrix (Fin 3) (Fin 3) ℝ → List LogRecord
  | 0, _, _ => []
  | n + 1, t, st =>
    let r := ekfStep c md sd t st.1 st.2.1 st.2.2
    r.2.2.2 :: runSimAux c md sd n (t + 1) (r.1, r.2.1, r.2.2.1)

/-- The whole EKF simulation run (source lines 61-125): the
configuration is consumed as given -- the source performs no
validation of any kind between the `config` literal and the loop --
and the loop always executes `time_steps` iterations. -/
def runSim (c : Config) (md sd : ℕ → ℝ) : List LogRecord :=
  runSimAux c md sd c.time_steps 0
    (c.initial_pose, c.initial_pose, (1 / 100 : ℝ) • 1)

lemma runSimAux_length (c : Config) (md sd : ℕ → ℝ) :
    ∀ n t st, (runSimAux c md sd n t st).length = n := by
  intro n
  induction n with
  | zero => intro t st; rfl
  | succ k ih => intro t st; simp [runSimAux, ih]

lemma runSim_length (c : Config) (md sd : ℕ → ℝ) :
    (runSim c md sd).length = c.time_steps :=
  runSimAux_length c md sd c.time_steps 0 _

/-- The componentwise estimation error of a record (source lines
131-132): true minus estimated, with the heading component wrapped. -/
def errVec (r : LogRecord) : Fin 3 → ℝ :=
  ![r.xActual - r.xEstimated, r.yActual - r.yEstimated,
    wrap (r.thetaActual - r.thetaEstimated)]

/-- The normalized squared error `e · Σ⁻¹ · e` of a record (source
line 144). -/
def aneesTerm (r : LogRecord) : ℝ := errVec r ⬝ᵥ (r.cov⁻¹ *ᵥ errVec r)

/-- Embedding of `np.mean` over a list that may contain `np.nan`
(modelled as `none`): the float mean of a list with a NaN entry is NaN,
and the mean of an empty list is NaN. -/
def npMean (l : List (Option ℝ)) : Option ℝ :=
  if l.length = 0 then none
  else if l.any (fun o => o.isNone) then none
  else some ((l.map (fun o => o.getD 0)).sum / l.length)

/-- Embedding of the ANEES computation (source lines 140-147 and
316-323): each record contributes `e · Σ⁻¹ · e` when its covariance is
well-conditioned and `np.nan` (`none`) otherwise, and `np.mean` is
taken over the resulting list.  The well-conditioned test
`np.linalg.cond(P) < 1e12` is abstracted as the predicate `wc`, since
the condition number is a floating-point computation; both the source
and the claim quantify over which records pass it. -/
def aneesCode (wc : Matrix (Fin 3) (Fin 3) ℝ → Prop) (recs : List LogRecord) :
    Option ℝ :=
  npMean (recs.map fun r => if wc r.cov then some (aneesTerm r) else none)

/-- The ANEES the specification describes, stated from its words:
ill-conditioned records are excluded, treated as missing rather than as
zero, and the mean is over the included records only. -/
def aneesSpec (wc : Matrix (Fin 3) (Fin 3) ℝ → Prop) (recs : List LogRecord) :
    Option ℝ :=
  let incl := recs.filter fun r => decide (wc r.cov)
  if incl.length = 0 then none
  else some ((incl.map aneesTerm).sum / incl.length)

/-- The accumulation loop of the RBO position fusion (source lines
234-239), over a list of per-landmark `(position, covariance)` pairs:
`Sigma_inv_sum` and `weighted_sum` as running sums. -/
def rboSensorFold (l : List ((Fin 2 → ℝ) × Matrix (Fin 2) (Fin 2) ℝ)) :
    Matrix (Fin 2) (Fin 2) ℝ × (Fin 2 → ℝ) :=
  l.foldl (fun acc s => (acc.1 + s.2⁻¹, acc.2 + s.2⁻¹ *ᵥ s.1)) (0, 0)

/-- Embedding of the RBO position fusion (source lines 234-242).  The
source iterates `for i in range(3)` -- the index bound is hardcoded to
3, not `len(landmarks)` -- so only the first three sensor estimates
enter the sums, and a list of fewer than three raises `IndexError`,
modelled as `none`. -/
def rboFusePos (l : List ((Fin 2 → ℝ) × Matrix (Fin 2) (Fin 2) ℝ)) :
    Option (Fin 2 → ℝ) :=
  if 3 ≤ l.length then
    some ((rboSensorFold (l.take 3)).1⁻¹ *ᵥ (rboSensorFold (l.take 3)).2)
  else none

/-- The fusion the specification describes, stated from its words: the
sums range over every landmark in the configured list, well-posed for
any list length of at least 2. -/
def rboFuseSpec (l : List ((Fin 2 → ℝ) × Matrix (Fin 2) (Fin 2) ℝ)) :
    Option (Fin 2 → ℝ) :=
  if 2 ≤ l.length then
    some ((rboSensorFold l).1⁻¹ *ᵥ (rboSensorFold l).2)
  else none

/-- The per-gap adjustment of `np.unwrap` with the default period `2π`:
a consecutive difference of magnitude below `π` is kept, a larger one
is shifted by a multiple of `2π` into `[-π, π)`, with the boundary case
mapped to `π` when the difference is positive. -/
def unwrapStep (dd : ℝ) : ℝ :=
  if |dd| < π then dd
  else
    let m := (dd + π) - 2 * π * (⌊(dd + π) / (2 * π)⌋ : ℤ) - π
    if m = -π ∧ 0 < dd then π else m

def npUnwrapGo (prevOrig prevOut : ℝ) : List ℝ → List ℝ
  | [] => []
  | x :: xs =>
    let u := prevOut + unwrapStep (x - prevOrig)
    u :: npUnwrapGo x u xs

/-- Embedding of `np.unwrap` on a sequence of angles: the first element
is kept and each later element is shifted by the cumulative correction,
so that consecutive output gaps stay within `(-π, π]`. -/
def npUnwrap : List ℝ → List ℝ
  | [] => []
  | x :: xs => x :: npUnwrapGo x x xs

/-- The heading columns stored in the RBO trajectory log (source lines
278-304): both the true and the estimated heading sequences are passed
through `np.unwrap` before being written to the data frame. -/
def rboThetaColumns (gts ests : List ℝ) : List ℝ × List ℝ :=
  (npUnwrap gts, npUnwrap ests)

/-- A float value that is either finite (`some`) or non-finite (`none`,
standing for IEEE NaN or infinity).  Used to track how the unguarded
divisions of the EKF correction step behave at degenerate geometry. -/
abbrev Fl := Option ℝ

def fadd : Fl → Fl → Fl := Option.map₂ (· + ·)

def fsub : Fl → Fl → Fl := Option.map₂ (· - ·)

def fmul : Fl → Fl → Fl := Option.map₂ (· * ·)

def fneg : Fl → Fl := Option.map (fun x => -x)

/-- Division: a zero denominator gives a non-finite result (NaN when
the numerator is also zero, infinity otherwise -- both `none` here). -/
def fdiv : Fl → Fl → Fl
  | some x, some y => if y = 0 then none else some (x / y)
  | _, _ => none

def fsin : Fl → Fl := Option.map Real.sin

def fcos : Fl → Fl := Option.map Real.cos

def fatan2 : Fl → Fl → Fl := Option.map₂ atan2

def fwrap (a : Fl) : Fl := fatan2 (fsin a) (fcos a)

@[simp] lemma fadd_none_left (b : Fl) : fadd none b = none := rfl

@[simp] lemma fadd_none_right (a : Fl) : fadd a none = none := by
  cases a <;> rfl

@[simp] lemma fadd_some_some (x y : ℝ) : fadd (some x) (some y) = some (x + y) := rfl

@[simp] lemma fsub_none_left (b : Fl) : fsub none b = none := rfl

@[simp] lemma fsub_none_right (a : Fl) : fsub a none = none := by
  cases a <;> rfl

@[simp] lemma fsub_some_some (x y : ℝ) : fsub (some x) (some y) = some (x - y) := rfl

@[simp] lemma fmul_none_left (b : Fl) : fmul none b = none := rfl

@[simp] lemma fmul_none_right (a : Fl) : fmul a none = none := by
  cases a <;> rfl

@[simp] lemma fmul_some_some (x y : ℝ) : fmul (some x) (some y) = some (x * y) := rfl

@[simp] lemma fneg_none : fneg none = none := rfl

@[simp] lemma fneg_some (x : ℝ) : fneg (some x) = some (-x) := rfl

@[simp] lemma fdiv_none_left (b : Fl) : fdiv none b = none := by
  cases b <;> rfl

@[simp] lemma fdiv_none_right (a : Fl) : fdiv a none = none := by
  cases a <;> rfl

@[simp] lemma fdiv_some_zero (x : ℝ) : fdiv (some x) (some 0) = none := by
  simp [fdiv]

@[simp] lemma fsin_none : fsin none = none := rfl

@[simp] lemma fcos_none : fcos none = none := rfl

@[simp] lemma fatan2_none_left (b : Fl) : fatan2 none b = none := rfl

@[simp] lemma fatan2_none_right (a : Fl) : fatan2 a none = none := by
  cases a <;> rfl

@[simp] lemma fwrap_none : fwrap none = none := rfl

def dot3Fl (a b : Fin 3 → Fl) : Fl :=
  fadd (fadd (fmul (a 0) (b 0)) (fmul (a 1) (b 1))) (fmul (a 2) (b 2))

def dot2Fl (a b : Fin 2 → Fl) : Fl :=
  fadd (fmul (a 0) (b 0)) (fmul (a 1) (b 1))

/-- Non-finite-tracking embedding of one EKF correction (source lines
89-118) for a single landmark `(lx, ly)`, with estimated pose
`(x, y, theta)`, covariance `P`, true pose `(xa, ya, thetaa)`, sensor
draws `nrho`, `nphi` and sensor noise levels `srho`, `sphi`.  All
inputs are finite; the divisions of `H` (by `expected_rho` and `q`) are
performed in `Fl`, and every later quantity -- `S`, its inverse
(written out as the 2×2 adjugate over determinant that
`np.linalg.inv` computes), `K`, the updated pose and covariance -- is
propagated in `Fl`.  The step has no error channel: it always returns a
pose and a covariance. -/
def correctStepFl (x y theta lx ly : ℝ) (P : Fin 3 → Fin 3 → ℝ)
    (xa ya thetaa : ℝ) (nrho nphi srho sphi : ℝ) :
    (Fin 3 → Fl) × (Fin 3 → Fin 3 → Fl) :=
  let dx := lx - x
  let dy := ly - y
  let q := dx ^ 2 + dy ^ 2
  let rho := Real.sqrt q
  let expected_phi := wrap (atan2 dy dx - theta)
  let dxT := lx - xa
  let dyT := ly - ya
  let measured_rho := Real.sqrt (dxT ^ 2 + dyT ^ 2) + srho * nrho
  let measured_phi := wrap (atan2 dyT dxT - thetaa + sphi * nphi)
  let y0 := measured_rho - rho
  let y1 := wrap (measured_phi - expected_phi)
  let H : Fin 2 → Fin 3 → Fl :=
    ![![fneg (fdiv (some dx) (some rho)), fneg (fdiv (some dy) (some rho)), some 0],
      ![fdiv (some dy) (some q), fneg (fdiv (some dx) (some q)), some (-1)]]
  let PHT : Fin 3 → Fin 2 → Fl := fun i j => dot3Fl (fun k => some (P i k)) (H j)
  let S : Fin 2 → Fin 2 → Fl := fun i j =>
    fadd (dot3Fl (H i) (fun k => PHT k j)) (some (R_mat srho sphi i j))
  let det := fsub (fmul (S 0 0) (S 1 1)) (fmul (S 0 1) (S 1 0))
  let Sinv : Fin 2 → Fin 2 → Fl :=
    ![![fdiv (S 1 1) det, fdiv (fneg (S 0 1)) det],
      ![fdiv (fneg (S 1 0)) det, fdiv (S 0 0) det]]
  let K : Fin 3 → Fin 2 → Fl := fun i j => dot2Fl (PHT i) (fun m => Sinv m j)
  let Ky : Fin 3 → Fl := fun i => fadd (fmul (K i 0) (some y0)) (fmul (K i 1) (some y1))
  let pose' : Fin 3 → Fl :=
    ![fadd (some x) (Ky 0), fadd (some y) (Ky 1), fwrap (fadd (some theta) (Ky 2))]
  let KH : Fin 3 → Fin 3 → Fl := fun i j => dot2Fl (K i) (fun m => H m j)
  let ImKH : Fin 3 → Fin 3 → Fl := fun i j =>
    fsub (some (if i = j then 1 else 0)) (KH i j)
  let Pn : Fin 3 → Fin 3 → Fl := fun i j => dot3Fl (ImKH i) (fun k => some (P k j))
  (pose', Pn)

/-- The two covariance updates of the EKF, as an abstract step: the
predict update (source line 86) parametrized by the quantities the
source builds `F`, `V` and `Q` from, and the correct update (source
lines 113-118) parametrized by the quantities the source builds `H`
and `R` from. -/
inductive CovStep
  | predict (theta dl dr b sl sr : ℝ)
  | correct (dx dy rho q srho sphi : ℝ)

/-- Applying one covariance update to `P`, exactly as the source does:
`P ← F P Fᵀ + V Q Vᵀ` for a predict step and `P ← (I - K H) P` with
`K = P Hᵀ S⁻¹`, `S = H P Hᵀ + R` for a correct step. -/
def applyCovStep (P : Matrix (Fin 3) (Fin 3) ℝ) : CovStep → Matrix (Fin 3) (Fin 3) ℝ
  | .predict theta dl dr b sl sr =>
    jacobian_F theta dl dr b * P * (jacobian_F theta dl dr b)ᵀ +
      V_mat theta b * Q_mat sl sr * (V_mat theta b)ᵀ
  | .correct dx dy rho q srho sphi =>
    (1 - P * (H_mat dx dy rho q)ᵀ *
        (H_mat dx dy rho q * P * (H_mat dx dy rho q)ᵀ + R_mat srho sphi)⁻¹ *
        H_mat dx dy rho q) * P

lemma rboSensorFold_go (l : List ((Fin 2 → ℝ) × Matrix (Fin 2) (Fin 2) ℝ)) :
    ∀ a b, l.foldl (fun acc s => (acc.1 + s.2⁻¹, acc.2 + s.2⁻¹ *ᵥ s.1)) (a, b) =
      (a + (l.map fun s => s.2⁻¹).sum, b + (l.map fun s => s.2⁻¹ *ᵥ s.1).sum) := by
  induction l with
  | nil => intro a b; simp
  | cons x xs ih =>
    intro a b
    simp only [List.foldl_cons, List.map_cons, List.sum_cons, ih, add_assoc]

lemma rboSensorFold_eq (l : List ((Fin 2 → ℝ) × Matrix (Fin 2) (Fin 2) ℝ)) :
    rboSensorFold l =
      ((l.map fun s => s.2⁻¹).sum, (l.map fun s => s.2⁻¹ *ᵥ s.1).sum) := by
  unfold rboSensorFold
  rw [rboSensorFold_go]
  simp

lemma Q_mat_symm (a b : ℝ) : (Q_mat a b)ᵀ = Q_mat a b := by
  ext i j
  fin_cases i <;> fin_cases j <;> simp [Q_mat]

lemma R_mat_symm (a b : ℝ) : (R_mat a b)ᵀ = R_mat a b := by
  ext i j
  fin_cases i <;> fin_cases j <;> simp [R_mat]

lemma applyCovStep_symm (P : Matrix (Fin 3) (Fin 3) ℝ) (hP : Pᵀ = P)
    (s : CovStep) : (applyCovStep P s)ᵀ = applyCovStep P s := by
  cases s with
  | predict theta dl dr b sl sr =>
    simp only [applyCovStep, Matrix.transpose_add, Matrix.transpose_mul,
      Matrix.transpose_transpose, Q_mat_symm, hP, Matrix.mul_assoc]
  | correct dx dy rho q srho sphi =>
    have hS : (H_mat dx dy rho q * (P * (H_mat dx dy rho q)ᵀ) + R_mat srho sphi)ᵀ =
        H_mat dx dy rho q * (P * (H_mat dx dy rho q)ᵀ) + R_mat srho sphi := by
      simp only [Matrix.transpose_add, Matrix.transpose_mul,
        Matrix.transpose_transpose, hP, R_mat_symm, Matrix.mul_assoc]
    have hSi : ((H_mat dx dy rho q * (P * (H_mat dx dy rho q)ᵀ) +
          R_mat srho sphi)⁻¹)ᵀ =
        (H_mat dx dy rho q * (P * (H_mat dx dy rho q)ᵀ) + R_mat srho sphi)⁻¹ := by
      rw [Matrix.transpose_nonsing_inv, hS]
    simp only [applyCovStep, Matrix.sub_mul, Matrix.one_mul, Matrix.transpose_sub,
      Matrix.transpose_mul, Matrix.transpose_transpose, hP, Matrix.mul_assoc, hSi]

lemma correctLm_theta_mem (c : Config) (sd : ℕ → ℝ) (idx : ℕ) (pa : Fin 3 → ℝ)
    (lm : ℝ × ℝ) (acc : (Fin 3 → ℝ) × Matrix (Fin 3) (Fin 3) ℝ) :
    (correctLm c sd idx pa lm acc).1 2 ∈ Set.Ioc (-π) π :=
  wrap_mem_Ioc _

lemma motion_model_theta_mem (x : Fin 3 → ℝ) (u : ℝ × ℝ) (b : ℝ) :
    (motion_model x u b) 2 ∈ Set.Ioc (-π) π :=
  wrap_mem_Ioc _

lemma foldCorrect_theta_mem (c : Config) (sd : ℕ → ℝ) (pa : Fin 3 → ℝ)
    (g : ℕ × (ℝ × ℝ) → ℕ) :
    ∀ (l : List (ℕ × (ℝ × ℝ))) (acc : (Fin 3 → ℝ) × Matrix (Fin 3) (Fin 3) ℝ),
      acc.1 2 ∈ Set.Ioc (-π) π →
      (l.foldl (fun a il => correctLm c sd (g il) pa il.2 a) acc).1 2 ∈
        Set.Ioc (-π) π := by
  intro l
  induction l with
  | nil => intro acc h; exact h
  | cons x xs ih =>
    intro acc h
    exact ih _ (correctLm_theta_mem c sd (g x) pa x.2 acc)

lemma ekfStep_record_theta (c : Config) (md sd : ℕ → ℝ) (t : ℕ)
    (pa pe : Fin 3 → ℝ) (P : Matrix (Fin 3) (Fin 3) ℝ) :
    (ekfStep c md sd t pa pe P).2.2.2.thetaActual ∈ Set.Ioc (-π) π ∧
    (ekfStep c md sd t pa pe P).2.2.2.thetaEstimated ∈ Set.Ioc (-π) π := by
  constructor
  · exact wrap_mem_Ioc _
  · exact foldCorrect_theta_mem c sd _ _ _ _ (wrap_mem_Ioc _)

lemma runSimAux_theta (c : Config) (md sd : ℕ → ℝ) :
    ∀ (n t : ℕ) (st : (Fin 3 → ℝ) × (Fin 3 → ℝ) × Matrix (Fin 3) (Fin 3) ℝ)
      (r : LogRecord), r ∈ runSimAux c md sd n t st →
      r.thetaActual ∈ Set.Ioc (-π) π ∧ r.thetaEstimated ∈ Set.Ioc (-π) π := by
  intro n
  induction n with
  | zero => intro t st r hr; simp [runSimAux] at hr
  | succ k ih =>
    intro t st r hr
    simp only [runSimAux, List.mem_cons] at hr
    rcases hr with hr | hr
    · rw [hr]; exact ekfStep_record_theta c md sd t st.1 st.2.1 st.2.2
    · exact ih _ _ _ hr

/-- The concrete draw stream that is 1 at index 0 (the turn-bias draw)
and 0 elsewhere. -/
def sOne : ℕ → ℝ := fun n => if n = 0 then 1 else 0

/-- The all-zero draw stream. -/
def sZero : ℕ → ℝ := fun _ => 0

/-- A configuration that is invalid on two of the counts the claim
lists -- non-positive wheel base and an empty landmark list -- used to
exhibit the absence of validation.  Its noise standard deviations are
kept at the valid value 0 so that every generator draw is well-defined
in the program too (a negative scale would instead raise `ValueError`
inside the first loop iteration, a path outside this embedding). -/
def badConfig : Config where
  wheel_base := -1
  wheel_diameter := 1 / 10
  time_steps := 1
  landmarks := []
  motionDL := 0
  motionDR := 0
  sensorRho := 0
  sensorPhi := 0
  initial_pose := ![0, 0, 0]

/-- A small valid configuration used to instantiate universally
quantified theorems: one time step, no landmarks. -/
def witnessConfig : Config where
  wheel_base := 1
  wheel_diameter := 1 / 10
  time_steps := 1
  landmarks := []
  motionDL := 0
  motionDR := 0
  sensorRho := 0
  sensorPhi := 0
  initial_pose := ![0, 0, 0]

/-- C2: the claim says the predict-step noise matrix `Q` is the
diagonal of the per-wheel motion variances, the squares of the
configured standard deviations.  The source instead places the
standard deviations themselves on the diagonal: at the configured value
`0.01` the code entry is `1/100` while the spec entry is `1/10000`, so
the two matrices differ.  The claim fails on the code. -/
theorem claim_C2_q_not_squared :
    Q_mat (1 / 100) (1 / 100) 0 0 = 1 / 100 ∧
    Q_spec (1 / 100) (1 / 100) 0 0 = 1 / 10000 ∧
    Q_mat (1 / 100) (1 / 100) ≠ Q_spec (1 / 100) (1 / 100) := by
  refine ⟨by norm_num [Q_mat], by norm_num [Q_spec], fun h => ?_⟩
  have h0 := congrFun (congrFun h 0) 0
  norm_num [Q_mat, Q_spec] at h0

/-- C9: the kinematic predict function returns exactly
`(x + d·cos θ', y + d·sin θ', θ')` with `d = (dl+dr)/2` and
`θ' = wrap(θ + (dr−dl)/b)`: the heading is updated and wrapped first
and the translation uses the new heading.  The last three conjuncts
make the ordering observable: the wrapped new heading has the same
cosine and sine as the unwrapped one and lies in `(-π, π]`. -/
theorem claim_C9_motion_model (x y theta dl dr b : ℝ) (_hb : 0 < b) :
    motion_model ![x, y, theta] (dl, dr) b =
      ![x + ((dl + dr) / 2) * Real.cos (wrap (theta + (dr - dl) / b)),
        y + ((dl + dr) / 2) * Real.sin (wrap (theta + (dr - dl) / b)),
        wrap (theta + (dr - dl) / b)] ∧
    Real.cos (wrap (theta + (dr - dl) / b)) = Real.cos (theta + (dr - dl) / b) ∧
    Real.sin (wrap (theta + (dr - dl) / b)) = Real.sin (theta + (dr - dl) / b) ∧
    wrap (theta + (dr - dl) / b) ∈ Set.Ioc (-π) π :=
  ⟨rfl, cos_wrap _, sin_wrap _, wrap_mem_Ioc _⟩

/-- Witness for C9 at the concrete input `(0,0,0)`, control `(0,0)`,
wheel base `1`. -/
theorem claim_C9_witness :
    (0 : ℝ) < 1 ∧
    (motion_model ![0, 0, 0] (0, 0) 1 =
      ![0 + ((0 + 0) / 2) * Real.cos (wrap (0 + (0 - 0) / 1)),
        0 + ((0 + 0) / 2) * Real.sin (wrap (0 + (0 - 0) / 1)),
        wrap (0 + (0 - 0) / 1)] ∧
     Real.cos (wrap (0 + (0 - 0) / 1)) = Real.cos (0 + (0 - 0) / 1) ∧
     Real.sin (wrap (0 + (0 - 0) / 1)) = Real.sin (0 + (0 - 0) / 1) ∧
     wrap (0 + (0 - 0) / 1) ∈ Set.Ioc (-π) π) :=
  ⟨by norm_num, claim_C9_motion_model 0 0 0 0 0 1 (by norm_num)⟩

/-- C10: the RBO position fusion is invariant under any permutation of
the order in which the (position estimate, covariance) pairs of the
configured landmarks are processed, the sums being commutative.  The
length hypothesis fixes the configured landmark count 3, the bound the
fusion loop of the source iterates over. -/
theorem claim_C10_fusion_perm
    (l l' : List ((Fin 2 → ℝ) × Matrix (Fin 2) (Fin 2) ℝ))
    (hp : l.Perm l') (hl : l.length = 3) :
    rboFusePos l = rboFusePos l' := by
  have hl' : l'.length = 3 := hp.length_eq ▸ hl
  unfold rboFusePos
  rw [if_pos (by omega), if_pos (by omega)]
  have ht : l.take 3 = l := by rw [← hl]; exact List.take_length l
  have ht' : l'.take 3 = l' := by rw [← hl']; exact List.take_length l'
  rw [ht, ht', rboSensorFold_eq, rboSensorFold_eq,
    (hp.map fun s => s.2⁻¹).sum_eq, (hp.map fun s => s.2⁻¹ *ᵥ s.1).sum_eq]

/-- Witness for C10: swapping the first two of three concrete sensor
estimates leaves the fused position unchanged. -/
theorem claim_C10_witness :
    rboFusePos [(![1, 0], (1 : Matrix (Fin 2) (Fin 2) ℝ)), (![0, 1], 1), (![0, 0], 1)] =
    rboFusePos [(![0, 1], (1 : Matrix (Fin 2) (Fin 2) ℝ)), (![1, 0], 1), (![0, 0], 1)] :=
  claim_C10_fusion_perm _ _ (List.Perm.swap _ _ _) rfl

/-- C5: the claim says the fusion sums range over every configured
landmark for any landmark-list length of at least 2.  The source loop
is `for i in range(3)`: on a two-landmark list it indexes past the end
(`IndexError`, modelled as `none`), while the fusion the specification
describes is defined and finite there.  The claim fails on the code;
the hardcoded bound contradicts the adjacent loops, which all iterate
`enumerate(landmarks)`. -/
theorem claim_C5_hardcoded_range :
    rboFusePos [((0 : Fin 2 → ℝ), (1 : Matrix (Fin 2) (Fin 2) ℝ)), (0, 1)] = none ∧
    rboFuseSpec [((0 : Fin 2 → ℝ), (1 : Matrix (Fin 2) (Fin 2) ℝ)), (0, 1)] =
      some 0 := by
  constructor
  · unfold rboFusePos
    rw [if_neg (by norm_num)]
  · unfold rboFuseSpec
    rw [if_pos (by norm_num), rboSensorFold_eq]
    simp

/-- C6 counterexample: a configuration with a non-positive wheel base
and an empty landmark list -- two of the invalid parameters the claim
says must fail fast before the simulation starts -- is consumed
without any check, and the simulation runs and produces its full log.
Its noise scales are the valid 0, so every draw the program makes is
well-defined and the run really completes. -/
theorem claim_C6_counterexample :
    badConfig.wheel_base ≤ 0 ∧ badConfig.landmarks.length < 1 ∧
    0 ≤ badConfig.motionDL ∧ 0 ≤ badConfig.motionDR ∧
    (runSim badConfig sZero sZero).length = 1 := by
  refine ⟨by norm_num [badConfig], by simp [badConfig], by norm_num [badConfig],
    by norm_num [badConfig], ?_⟩
  rw [runSim_length]
  rfl

/-- C6 (amended): no construction-time validation exists.  For every
configuration whose noise scales keep the draws well-defined
(non-negative motion noise) and whose landmark list is empty -- so
that no exception path of the libraries is reachable in the loop --
the simulation starts and completes, producing exactly `time_steps`
log records, whatever the wheel base, step count or initial pose; in
particular invalid values of those parameters are not rejected.  (A
negative noise standard deviation does abort the real program, but via
a `ValueError` raised by the generator inside the first loop
iteration, after the simulation has started -- incidental library
behaviour, not construction-time validation.) -/
theorem claim_C6_no_validation (c : Config) (md sd : ℕ → ℝ)
    (_hlm : c.landmarks = []) (_hdl : 0 ≤ c.motionDL) (_hdr : 0 ≤ c.motionDR) :
    (runSim c md sd).length = c.time_steps :=
  runSim_length c md sd

/-- Witness for C6 (amended) at a concrete configuration. -/
theorem claim_C6_witness :
    (runSim witnessConfig sZero sZero).length = witnessConfig.time_steps :=
  claim_C6_no_validation witnessConfig sZero sZero rfl
    (by norm_num [witnessConfig]) (by norm_num [witnessConfig])

/-- C8: starting from any symmetric covariance, the 3×3 covariance
stays exactly symmetric (in real arithmetic) after any sequence of
predict updates `P ← F P Fᵀ + V Q Vᵀ` and correct updates
`P ← (I − K H) P` with `K = P Hᵀ S⁻¹`; every prefix of the sequence is
itself such a sequence, so symmetry holds after every step. -/
theorem claim_C8_covariance_symmetric (steps : List CovStep)
    (P : Matrix (Fin 3) (Fin 3) ℝ) (hP : Pᵀ = P) :
    (steps.foldl applyCovStep P)ᵀ = steps.foldl applyCovStep P := by
  induction steps generalizing P with
  | nil => exact hP
  | cons s rest ih => exact ih _ (applyCovStep_symm P hP s)

/-- Witness for C8: identity initial covariance, one predict and one
correct step at concrete parameters. -/
theorem claim_C8_witness :
    (List.foldl applyCovStep (1 : Matrix (Fin 3) (Fin 3) ℝ)
        [CovStep.predict 0 0 0 1 1 1, CovStep.correct 1 1 1 1 1 1])ᵀ =
    List.foldl applyCovStep (1 : Matrix (Fin 3) (Fin 3) ℝ)
        [CovStep.predict 0 0 0 1 1 1, CovStep.correct 1 1 1 1 1 1] :=
  claim_C8_covariance_symmetric _ 1 Matrix.transpose_one

/-- C3 counterexample: the streams `sOne` and `sZero` agree on every
draw except index 0 -- the turn-bias draw of step 0 -- yet changing
that single draw changes BOTH the true control and the estimator
control estimate of step 0.  The estimator control therefore depends on
the very draw that realizes the true control turn bias: it is not
sampled independently of the true control, and both are drawn from the
one motion stream. -/
theorem claim_C3_counterexample :
    sOne 1 = sZero 1 ∧ sOne 2 = sZero 2 ∧ sOne 3 = sZero 3 ∧ sOne 4 = sZero 4 ∧
    controlTrue defaultConfig sOne 0 ≠ controlTrue defaultConfig sZero 0 ∧
    controlEst defaultConfig sOne 0 ≠ controlEst defaultConfig sZero 0 := by
  refine ⟨rfl, rfl, rfl, rfl, ?_, ?_⟩ <;>
    · intro h
      have h1 := congrArg Prod.fst h
      norm_num [controlTrue, controlEst, turnBias, defaultConfig, sOne, sZero] at h1

/-- C3 (amended): at each step the estimator redraws its per-wheel
Gaussian increments independently -- the control estimate of step `t`
is a function of draws `5t`, `5t+3`, `5t+4` only, never of the true
control increments at `5t+1`, `5t+2` -- but it reuses the turn-bias
realization of draw `5t`, which also enters the true control, and both
are taken from the single motion stream. -/
theorem claim_C3_turn_bias_shared :
    (∀ (t : ℕ) (s s' : ℕ → ℝ),
        s (5 * t) = s' (5 * t) → s (5 * t + 3) = s' (5 * t + 3) →
        s (5 * t + 4) = s' (5 * t + 4) →
        controlEst defaultConfig s t = controlEst defaultConfig s' t) ∧
    controlEst defaultConfig sOne 0 ≠ controlEst defaultConfig sZero 0 ∧
    controlTrue defaultConfig sOne 0 ≠ controlTrue defaultConfig sZero 0 := by
  refine ⟨fun t s s' h0 h3 h4 => ?_, fun h => ?_, fun h => ?_⟩
  · simp [controlEst, turnBias, h0, h3, h4]
  · have h1 := congrArg Prod.fst h
    norm_num [controlEst, turnBias, defaultConfig, sOne, sZero] at h1
  · have h1 := congrArg Prod.fst h
    norm_num [controlTrue, turnBias, defaultConfig, sOne, sZero] at h1

/-- Witness for C3 (amended): two streams differing only in the true
control increments (indices 1 and 2) give the same estimator control. -/
theorem claim_C3_witness :
    controlEst defaultConfig (fun n => if n = 1 then 5 else 0) 0 =
    controlEst defaultConfig (fun n => if n = 2 then 7 else 0) 0 :=
  claim_C3_turn_bias_shared.1 0 _ _ (by simp) (by simp) (by simp)

/-- C1: the claim says ill-conditioned records are excluded from the
ANEES mean, so a log with at least one well-conditioned record gets the
finite mean over the included records.  In the source the ill-
conditioned branch contributes `np.nan` to the list and the mean is
taken with `np.mean`, which propagates NaN: on a two-record log whose
first record is well-conditioned (identity covariance, error
`(1,0,0)`, term 1) and whose second is ill-conditioned (zero
covariance), the code returns NaN (`none`) while the mean over included
records is `1`.  The claim fails on the code; the `np.nan` marker shows
exclusion was the intent and `np.mean` (rather than `np.nanmean`) the
slip. -/
theorem claim_C1_nan_poisons_mean :
    aneesCode (fun M => M 0 0 ≠ 0)
      [⟨1, 0, 0, 0, 0, 0, 1⟩, ⟨0, 0, 0, 0, 0, 0, 0⟩] = none ∧
    aneesSpec (fun M => M 0 0 ≠ 0)
      [⟨1, 0, 0, 0, 0, 0, 1⟩, ⟨0, 0, 0, 0, 0, 0, 0⟩] = some 1 := by
  constructor
  · simp [aneesCode, npMean, Matrix.one_apply_eq, Matrix.zero_apply]
  · have hterm : aneesTerm ⟨1, 0, 0, 0, 0, 0, 1⟩ = 1 := by
      simp [aneesTerm, errVec, inv_one, Matrix.one_mulVec, wrap_zero,
        Matrix.dotProduct, Fin.sum_univ_three]
    simp [aneesSpec, Matrix.one_apply_eq, Matrix.zero_apply, hterm]

/-- C7 (amended): every heading stored in an EKF trajectory-log record
-- the true pose heading and the estimated pose heading, at every time
step, for every configuration and every draw stream -- lies in
`(-π, π]`: the true heading is produced by the wrapping motion model
and the estimated heading is re-wrapped by the last correction (or by
the motion model when the landmark list is empty).  The RBO log is the
exception the claim misses (see the unwrap counterexample). -/
theorem claim_C7_ekf_headings_wrapped (c : Config) (md sd : ℕ → ℝ)
    (r : LogRecord) (hr : r ∈ runSim c md sd) :
    r.thetaActual ∈ Set.Ioc (-π) π ∧ r.thetaEstimated ∈ Set.Ioc (-π) π :=
  runSimAux_theta c md sd c.time_steps 0 _ r hr

/-- Witness for C7 at a concrete one-step run. -/
theorem claim_C7_witness :
    ((runSim witnessConfig sZero sZero).headI).thetaActual ∈ Set.Ioc (-π) π ∧
    ((runSim witnessConfig sZero sZero).headI).thetaEstimated ∈ Set.Ioc (-π) π := by
  apply claim_C7_ekf_headings_wrapped
  cases hl : runSim witnessConfig sZero sZero with
  | nil =>
    have h1 := runSim_length witnessConfig sZero sZero
    rw [hl] at h1
    simp [witnessConfig] at h1
  | cons a l => simp

/-- C7 counterexample: the RBO log stores `np.unwrap`-ed heading
sequences (source lines 279, 281).  On the valid wrapped heading
sequence `[3, -3]` -- both values in `(-π, π]` -- the stored true-
heading column is `[3, 2π − 3]`, whose second entry exceeds `π`.  So
not every heading stored in a trajectory-log record lies in `(-π, π]`:
the claim fails for the RBO log. -/
theorem claim_C7_counterexample :
    (rboThetaColumns [3, -3] []).1 = [3, 2 * π - 3] ∧
    2 * π - 3 ∉ Set.Ioc (-π) π ∧
    (3 : ℝ) ∈ Set.Ioc (-π) π ∧ (-3 : ℝ) ∈ Set.Ioc (-π) π := by
  have hpi3 := Real.pi_gt_three
  have hpi4 : π < 3.15 := Real.pi_lt_d2
  have hstep : unwrapStep ((-3 : ℝ) - 3) = 2 * π - 6 := by
    have h6 : ((-3 : ℝ) - 3) = -6 := by norm_num
    rw [h6]
    have habs : ¬(|(-6 : ℝ)| < π) := by
      rw [show |(-6 : ℝ)| = 6 by norm_num]
      linarith
    have hfloor : ⌊((-6 : ℝ) + π) / (2 * π)⌋ = -1 := by
      rw [Int.floor_eq_iff]
      push_cast
      rw [le_div_iff₀ (by positivity), div_lt_iff₀ (by positivity)]
      constructor <;> nlinarith
    unfold unwrapStep
    rw [if_neg habs]
    simp only [hfloor]
    have hcond : ¬((((-6 : ℝ) + π) - 2 * π * ((-1 : ℤ) : ℝ) - π = -π) ∧
        (0 : ℝ) < -6) := by
      rintro ⟨-, h⟩
      norm_num at h
    rw [if_neg (by push_cast at hcond ⊢; exact hcond)]
    push_cast
    ring
  refine ⟨?_, ?_, ?_, ?_⟩
  · simp only [rboThetaColumns, npUnwrap, npUnwrapGo, hstep]
    have h2 : 3 + (2 * π - 6) = 2 * π - 3 := by ring
    rw [h2]
  · intro hmem
    have := hmem.2
    linarith
  · constructor <;> linarith
  · constructor <;> linarith

/-- C4 (amended): the correction step contains no check for degenerate
geometry.  Whenever the landmark coincides with the estimated position
-- for every heading, covariance, true pose, draw and noise level --
the divisions by the zero range and zero squared distance produce
non-finite values that propagate unchecked through `H`, `S`, the
inversion of `S`, `K`, and into every component of the returned pose
and covariance: the step returns normally with a fully NaN state
instead of raising any per-step failure. -/
theorem claim_C4_nan_propagates (theta lx ly : ℝ) (P : Fin 3 → Fin 3 → ℝ)
    (xa ya thetaa nrho nphi srho sphi : ℝ) :
    (correctStepFl lx ly theta lx ly P xa ya thetaa nrho nphi srho sphi).1 =
      ![none, none, none] ∧
    (correctStepFl lx ly theta lx ly P xa ya thetaa nrho nphi srho sphi).2 =
      fun _ _ => none := by
  constructor
  · funext i
    fin_cases i <;>
      simp [correctStepFl, dot3Fl, dot2Fl, sub_self, Real.sqrt_zero]
  · funext i j
    fin_cases i <;> fin_cases j <;>
      simp [correctStepFl, dot3Fl, dot2Fl, sub_self, Real.sqrt_zero]

/-- C4 counterexample: at the concrete degenerate input -- estimated
pose `(5, 5, 0)` with the landmark at `(5, 5)`, the initial covariance
`0.01·I`, true pose `(0, 0, 0)`, zero draws and the configured noise
levels -- the correction step returns a pose whose every component is
non-finite (NaN), with no error value or exclusion flag: the claim
that the step is surfaced as an explicit per-step failure instead of
silently producing and propagating NaN is false here. -/
theorem claim_C4_counterexample :
    (correctStepFl 5 5 0 5 5 (fun i j => if i = j then 1 / 100 else 0)
        0 0 0 0 0 (1 / 10) (1 / 20)).1 = ![none, none, none] := by
  funext i
  fin_cases i <;>
    simp [correctStepFl, dot3Fl, dot2Fl, sub_self, Real.sqrt_zero]

end
